import Mathlib

/-!
Verification of the download-job orchestrator in `src/backend/server.py`
(Multi-Platform Video Downloader backend).

The Python source is shallowly embedded below: pure helper functions become
Lean functions, the `download_sync` / `_execute_download` / `download_video`
call chain becomes a pure outcome function parameterised by the behaviour of the extractor, the elapsed wall-clock duration of the blocking call and the
state of the download directory, and the asynchronous interleaving of job
tasks, the semaphore and yt-dlp progress callbacks becomes an executable
step function over an explicit system state.
-/

namespace Server

/-! ## String helpers

The Python substring test (pat in url), embedded structurally over the
character list so that it reduces in the kernel. -/

/-- Checks whether the first list is a prefix of the second (by `==` on
characters). -/
def isPrefixL : List Char → List Char → Bool
  | [], _ => true
  | _ :: _, [] => false
  | a :: as, b :: bs => a == b && isPrefixL as bs

/-- Checks whether `pat` occurs as a contiguous sublist of the second list. -/
def containsL (pat : List Char) : List Char → Bool
  | [] => isPrefixL pat []
  | c :: rest => isPrefixL pat (c :: rest) || containsL pat rest

/-- Models the Python substring containment test (pat in s) on strings. -/
def strContains (s pat : String) : Bool :=
  containsL pat.data s.data

/-! ## Request model and configuration constants -/

/-- Embeds the `VideoRequest` pydantic model (the `url` is kept as a plain
string; URL validation is an external collaborator per the spec). -/
structure VideoRequest where
  url : String
  format : String
  quality : String
  audio_only : Bool
  remove_watermark : Bool
deriving Repr, DecidableEq

/-- Embeds `self.max_file_size = 500 * 1024 * 1024` (500MB limit). -/
def max_file_size : Nat := 500 * 1024 * 1024

/-- Embeds `self.timeout_duration = 600` (10 minutes, in seconds). -/
def timeout_duration : Nat := 600

/-- Embeds `asyncio.Semaphore(5)` — at most 5 concurrent downloads. -/
def semaphore_capacity : Nat := 5

/-! ## Platform detection and format selection -/

/-- Embeds `VideoDownloader._detect_platform`. -/
def detect_platform (url : String) : String :=
  if strContains url "tiktok.com" then "tiktok"
  else if strContains url "instagram.com" then "instagram"
  else if strContains url "youtube.com" || strContains url "youtu.be" then "youtube"
  else if strContains url "facebook.com" then "facebook"
  else if strContains url "twitter.com" || strContains url "x.com" then "twitter"
  else "unknown"

/-- Embeds the `quality_map` dictionary literal inside
`VideoDownloader._get_format_string`. -/
def quality_map : List (String × String) :=
  [("best", "bestvideo+bestaudio/best"),
   ("worst", "worst"),
   ("720p", "bestvideo[height<=720]+bestaudio/best[height<=720]"),
   ("480p", "bestvideo[height<=480]+bestaudio/best[height<=480]"),
   ("1080p", "bestvideo[height<=1080]+bestaudio/best[height<=1080]")]

/-- Embeds the dict read `quality_map.get(request.quality, default)` with the unconstrained-best default. -/
def quality_lookup (q : String) : String :=
  (quality_map.lookup q).getD "bestvideo+bestaudio/best"

/-- Embeds `VideoDownloader._get_format_string`. -/
def get_format_string (request : VideoRequest) (platform : String) : String :=
  if request.audio_only then "bestaudio/best"
  else if platform == "tiktok" && request.remove_watermark then "best[ext=mp4]"
  else quality_lookup request.quality

/-- Embeds the `format` key set by `VideoDownloader._get_youtube_options`:
that platform-specific dict unconditionally overrides the base format. -/
def youtube_format (request : VideoRequest) : String :=
  if request.audio_only then "bestaudio/best"
  else "bestvideo[ext=mp4]+bestaudio[ext=m4a]/mp4/best"

/-- Embeds the `format` entry of the options dict built by
`VideoDownloader._build_yt_dlp_options` after the platform-specific
`update` calls: the base entry is `get_format_string`, and only the
YouTube options dict carries a `format` key that overrides it
(`_get_tiktok_options` and `_get_instagram_options` set no `format`). -/
def build_options_format (request : VideoRequest) (platform : String) : String :=
  if platform == "youtube" then youtube_format request
  else get_format_string request platform

/-! ## Extractor results and the synchronous download body -/

/-- Embeds the `info` dictionary returned by `ydl.extract_info` (the keys
the orchestrator reads; an absent or `None` key is `none`, and a `filesize`
of `some 0` models the falsy value `0`). -/
structure InfoDict where
  title : Option String
  uploader : Option String
  duration : Option Nat
  view_count : Option Nat
  upload_date : Option String
  filesize : Option Nat
deriving Repr, DecidableEq

/-- Models one behaviour of the external yt-dlp extractor for a fixed URL
and options: the outcome of `extract_info(url, download=False)` and of
`extract_info(url, download=True)`, each either an info dict or a raised
exception message. -/
structure Extractor where
  inspect : Except String InfoDict
  download : Except String InfoDict
deriving Repr

/-- Classified exceptions escaping `_execute_download` (the code raises
`HTTPException` / `ValueError` instances; the classification keeps the
data each message carries, eliding the Python float formatting of the
oversize message). -/
inductive JobError where
  /-- `HTTPException(408, "Download timeout - ...")` from `asyncio.TimeoutError`. -/
  | timeout
  /-- `ValueError("File size (...) exceeds maximum allowed size (500MB)")`,
  re-raised as `HTTPException(500, "Download failed: ...")`; carries the
  preflight-reported size in bytes. -/
  | sizeExceeded (reportedSize : Nat)
  /-- any other extractor exception, re-raised as
  `HTTPException(500, "Download failed: ...")`. -/
  | extractionFailed (msg : String)
  /-- `HTTPException(500, "No video file was downloaded")`. -/
  | artifactNotFound
deriving Repr, DecidableEq

/-- Embeds the guard
checking that the key filesize is present, truthy and above `self.max_file_size`:
an absent/`None` key and the falsy value `0` both skip the check. -/
def size_check_trips (maxSize : Nat) : Option Nat → Bool
  | none => false
  | some n => n != 0 && decide (maxSize < n)

/-- Outcome of the blocking `download_sync` closure, instrumented with
whether the download-mode `extract_info(url, download=True)` call was
reached. -/
structure SyncOutcome where
  result : Except JobError InfoDict
  downloadCalled : Bool
deriving Repr

/-- Embeds the `download_sync` closure inside
`VideoDownloader._execute_download`: inspect first, then the preflight
size check (raising `ValueError` without downloading when it trips), then
the download-mode call. -/
def download_sync (maxSize : Nat) (ex : Extractor) : SyncOutcome :=
  match ex.inspect with
  | Except.error msg =>
      { result := Except.error (JobError.extractionFailed msg), downloadCalled := false }
  | Except.ok info =>
      if size_check_trips maxSize info.filesize then
        { result := Except.error (JobError.sizeExceeded (info.filesize.getD 0)),
          downloadCalled := false }
      else
        match ex.download with
        | Except.error msg =>
            { result := Except.error (JobError.extractionFailed msg), downloadCalled := true }
        | Except.ok info2 =>
            { result := Except.ok info2, downloadCalled := true }

/-! ## Locating the artifact and finishing `_execute_download` -/

/-- Embeds the video extension probe list in `_execute_download`. -/
def video_extensions : List String := ["mp4", "webm", "mkv", "avi", "mov", "flv"]

/-- Embeds the audio extension probe list in `_execute_download`. -/
def audio_extensions : List String := ["mp3", "m4a", "wav", "ogg", "aac"]

/-- Probes the download directory (modelled as a map from extension to the
size of `downloads/{id}.{ext}` when that file exists) for the first
extension in the list that exists, mirroring the `break` in the source. -/
def first_existing (fs : String → Option Nat) : List String → Option (String × Nat)
  | [] => none
  | e :: rest =>
      match fs e with
      | some sz => some (e, sz)
      | none => first_existing fs rest

/-- Embeds the artifact probe of `_execute_download`: video extensions
first, audio extensions only if no video file was found. -/
def locate_downloaded (fs : String → Option Nat) : Option (String × Nat) :=
  match first_existing fs video_extensions with
  | some r => some r
  | none => first_existing fs audio_extensions

/-- Embeds the metadata dict built at the end of `_execute_download`
(`info.get` with the defaults written in the source, platform re-detected from the URL). -/
structure Metadata where
  title : String
  uploader : String
  duration : Nat
  view_count : Nat
  upload_date : String
  platform : String
deriving Repr, DecidableEq

/-- Builds the `metadata` entry of the result dict from the download-mode
info dict, as written in `_execute_download`. -/
def build_metadata (info : InfoDict) (url : String) : Metadata :=
  { title := info.title.getD "Unknown",
    uploader := info.uploader.getD "Unknown",
    duration := info.duration.getD 0,
    view_count := info.view_count.getD 0,
    upload_date := info.upload_date.getD "Unknown",
    platform := detect_platform url }

/-- Embeds the result dict returned by `_execute_download` on success:
the path of the located file, its on-disk size from `stat().st_size`, its name
and the metadata map. -/
structure DownloadResult where
  file_path : String
  file_size : Nat
  filename : String
  metadata : Metadata
deriving Repr, DecidableEq

/-- Embeds `VideoDownloader._execute_download`: the blocking
`download_sync` body is awaited under `asyncio.wait_for` with
`timeout_duration`; `elapsed` is the wall-clock duration the blocking call
takes, so the orchestrator observes `asyncio.TimeoutError` exactly when it
exceeds the budget, whatever the call would eventually produce. On a
successful sync result the artifact probe runs and the result dict is
built. -/
def execute_download (url downloadId : String) (ex : Extractor) (elapsed : Nat)
    (fs : String → Option Nat) : Except JobError DownloadResult :=
  if timeout_duration < elapsed then
    Except.error JobError.timeout
  else
    match (download_sync max_file_size ex).result with
    | Except.error e => Except.error e
    | Except.ok info =>
        match locate_downloaded fs with
        | none => Except.error JobError.artifactNotFound
        | some (ext, sz) =>
            Except.ok
              { file_path := "downloads/" ++ downloadId ++ "." ++ ext,
                file_size := sz,
                filename := downloadId ++ "." ++ ext,
                metadata := build_metadata info url }

/-! ## Job records and the orchestrating `download_video` method -/

/-- Job statuses stored in `active_downloads` (the strings "queued",
"processing", "completed", "failed"). -/
inductive Status where
  | queued
  | processing
  | completed
  | failed
deriving Repr, DecidableEq, BEq

/-- Embeds one entry of `downloader.active_downloads`: the mutable job
record dict, with the keys the orchestrator and the progress hook write. -/
structure JobRecord where
  status : Status
  message : String
  url : String
  progress : Option String
  speed : Option String
  eta : Option String
  downloaded_bytes : Nat
  total_bytes : Nat
  start_time : Option Nat
  end_time : Option Nat
  duration : Option Nat
  result : Option DownloadResult
  error : Option JobError
deriving Repr, DecidableEq

/-- The record `download_video` stores on entering the semaphore:
`{"status": "processing", "start_time": ..., "url": ..., "message": "Starting download..."}`. -/
def initial_record (url : String) (startTime : Option Nat) : JobRecord :=
  { status := Status.processing,
    message := "Starting download...",
    url := url,
    progress := none, speed := none, eta := none,
    downloaded_bytes := 0, total_bytes := 0,
    start_time := startTime, end_time := none, duration := none,
    result := none, error := none }

/-- Embeds `VideoDownloader.download_video` as the final record the method
leaves in `active_downloads` for a run with the given extractor behaviour,
blocking-call duration and download-directory contents (progress-hook
interleavings are modelled separately in the system below). On success the
record is updated to completed with the result; any exception is caught
and the record updated to failed with the error. -/
def download_video (req : VideoRequest) (downloadId : String) (ex : Extractor)
    (elapsed : Nat) (fs : String → Option Nat) (startTime endTime : Nat) : JobRecord :=
  let rec0 := initial_record req.url (some startTime)
  match execute_download req.url downloadId ex elapsed fs with
  | Except.ok result =>
      { rec0 with
        status := Status.completed,
        end_time := some endTime,
        duration := some (endTime - startTime),
        result := some result,
        message := "Download completed successfully!" }
  | Except.error e =>
      { rec0 with
        status := Status.failed,
        error := some e,
        end_time := some endTime,
        message := "Download failed" }

/-! ## Progress hook -/

/-- Embeds the dict `d` passed by yt-dlp to the hook created in
`VideoDownloader._create_progress_hook` (the `d.get(key, default)` reads
are modelled by carrying the read values directly). -/
structure ProgressEvent where
  status : String
  percent_str : String
  speed_str : String
  eta_str : String
  downloaded_bytes : Nat
  total_bytes : Nat
deriving Repr, DecidableEq

/-- Embeds the `progress_hook` closure of
`VideoDownloader._create_progress_hook` as its effect on the job record it
mutates: a `downloading` event merges the progress fields, a `finished`
event unconditionally sets the status back to `processing` — there is no
check of the current status of the record anywhere in the hook. -/
def progress_hook (d : ProgressEvent) (r : JobRecord) : JobRecord :=
  if d.status == "downloading" then
    { r with
      progress := some d.percent_str,
      speed := some d.speed_str,
      eta := some d.eta_str,
      downloaded_bytes := d.downloaded_bytes,
      total_bytes := d.total_bytes }
  else if d.status == "finished" then
    { r with status := Status.processing, message := "Processing downloaded file..." }
  else r

/-! ## Association-list helpers for the shared dictionaries -/

/-- Reads key `id` from an association list (embeds Python dict lookup). -/
def getAssoc {α : Type} : List (String × α) → String → Option α
  | [], _ => none
  | (k, v) :: rest, id => if k == id then some v else getAssoc rest id

/-- Overwrites the value at key `id` when present (embeds Python dict
item assignment / `update` on an existing key). -/
def setAssoc {α : Type} : List (String × α) → String → α → List (String × α)
  | [], _, _ => []
  | (k, v) :: rest, id, x =>
      if k == id then (k, x) :: rest else (k, v) :: setAssoc rest id x

/-! ## The asynchronous system

One `download_video` task per submitted job, the shared
`active_downloads` dict, the admission semaphore and the extractor worker
thread are modelled as an executable transition function over an explicit
state. Each event is one atomic mutation the Python code performs:

* `submit` — the POST handler schedules the background task (no record is
  written there);
* `start` — the task acquires a semaphore permit and writes the initial
  `processing` record;
* `hook` — the extractor worker thread fires a progress callback, which
  the code applies whenever that thread is still running — including after
  a timeout has already marked the record failed, since `asyncio.wait_for`
  abandons but does not stop the executor thread;
* `complete` / `fail` — the task leaves the `try`/`except` of
  `download_video`, writing the terminal record and releasing the permit
  on every outcome (the `async with` block); only a timeout failure leaves
  the worker thread alive;
* `threadFinish` — the abandoned worker thread eventually ends. -/

/-- Control phase of the background task of one job. -/
inductive Phase where
  | submitted
  | running
  | done
deriving Repr, DecidableEq, BEq

/-- Per-job control state: the phase of the task plus whether the extractor
worker thread can still fire progress callbacks. -/
structure JobCtl where
  phase : Phase
  threadLive : Bool
deriving Repr, DecidableEq

/-- The shared state: available semaphore permits, the
`active_downloads` dict and the per-job control states. -/
structure SysState where
  avail : Nat
  store : List (String × JobRecord)
  ctl : List (String × JobCtl)
deriving Repr

/-- The process state at startup with semaphore capacity `n`. -/
def initState (n : Nat) : SysState :=
  { avail := n, store := [], ctl := [] }

/-- Recognises the timeout error (the only failure that leaves the
executor thread running after the terminal transition of the task). -/
def isTimeout : JobError → Bool
  | JobError.timeout => true
  | _ => false

/-- Atomic events of the system. -/
inductive Event where
  | submit (id : String)
  | start (id : String)
  | hook (id : String) (d : ProgressEvent)
  | complete (id : String) (res : DownloadResult)
  | fail (id : String) (err : JobError)
  | threadFinish (id : String)

/-- One atomic step of the system; `none` when the event is not enabled in
the given state. -/
def step (s : SysState) : Event → Option SysState
  | Event.submit id =>
      match getAssoc s.ctl id with
      | some _ => none
      | none =>
          some { s with ctl := (id, { phase := Phase.submitted, threadLive := false }) :: s.ctl }
  | Event.start id =>
      match getAssoc s.ctl id with
      | some c =>
          if c.phase == Phase.submitted && decide (0 < s.avail) then
            some { avail := s.avail - 1,
                   store := (id, initial_record "" none) :: s.store,
                   ctl := setAssoc s.ctl id { phase := Phase.running, threadLive := true } }
          else none
      | none => none
  | Event.hook id d =>
      match getAssoc s.ctl id, getAssoc s.store id with
      | some c, some r =>
          if c.threadLive then
            some { s with store := setAssoc s.store id (progress_hook d r) }
          else none
      | _, _ => none
  | Event.complete id res =>
      match getAssoc s.ctl id, getAssoc s.store id with
      | some c, some r =>
          if c.phase == Phase.running then
            some { avail := s.avail + 1,
                   store := setAssoc s.store id
                     { r with
                       status := Status.completed,
                       result := some res,
                       message := "Download completed successfully!" },
                   ctl := setAssoc s.ctl id { phase := Phase.done, threadLive := false } }
          else none
      | _, _ => none
  | Event.fail id err =>
      match getAssoc s.ctl id, getAssoc s.store id with
      | some c, some r =>
          if c.phase == Phase.running then
            some { avail := s.avail + 1,
                   store := setAssoc s.store id
                     { r with
                       status := Status.failed,
                       error := some err,
                       message := "Download failed" },
                   ctl := setAssoc s.ctl id { phase := Phase.done, threadLive := isTimeout err } }
          else none
      | _, _ => none
  | Event.threadFinish id =>
      match getAssoc s.ctl id with
      | some c =>
          if c.threadLive then
            some { s with ctl := setAssoc s.ctl id { c with threadLive := false } }
          else none
      | none => none

/-- Runs a sequence of events from a state (`none` when some event is not
enabled where it occurs). -/
def run (s : SysState) : List Event → Option SysState
  | [] => some s
  | e :: rest =>
      match step s e with
      | some s2 => run s2 rest
      | none => none

/-! ## Endpoint models -/

/-- Embeds the `DownloadResponse` fields the POST handler fills in. -/
structure DownloadResponse where
  download_id : String
  status : String
  message : String
deriving Repr, DecidableEq

/-- Embeds the POST `/api/download` handler: it generates the identity,
schedules the background task and returns at once — writing nothing into
`active_downloads`. -/
def download_endpoint (downloadId : String) : DownloadResponse :=
  { download_id := downloadId,
    status := "queued",
    message := "Download started successfully" }

/-- Embeds the record lookup of GET `/api/download/.../status`; `none`
models the 404 "Download not found" branch. -/
def get_status (s : SysState) (id : String) : Option JobRecord :=
  getAssoc s.store id

/-- Embeds the `active_downloads` field of the GET `/api/health` response:
`len(downloader.active_downloads)`. -/
def health_count (s : SysState) : Nat :=
  s.store.length

/-- Number of records currently carrying status `processing`. -/
def processing_count (s : SysState) : Nat :=
  (s.store.filter (fun p => p.2.status == Status.processing)).length

/-! ## Helper lemmas on the association-list dictionaries -/

theorem getAssoc_some_mem {α : Type} {l : List (String × α)} {id : String} {v : α}
    (h : getAssoc l id = some v) : ∃ k, (k, v) ∈ l := by
  induction l with
  | nil => simp [getAssoc] at h
  | cons hd tl ih =>
    obtain ⟨k0, v0⟩ := hd
    simp only [getAssoc] at h
    cases hbeq : (k0 == id) with
    | true =>
      rw [hbeq] at h
      simp at h
      exact ⟨k0, by simp [h]⟩
    | false =>
      rw [hbeq] at h
      simp at h
      obtain ⟨k, hk⟩ := ih h
      exact ⟨k, List.mem_cons_of_mem _ hk⟩

theorem setAssoc_mem {α : Type} {l : List (String × α)} {id : String} {x : α}
    {p : String × α} (h : p ∈ setAssoc l id x) : p.2 = x ∨ p ∈ l := by
  induction l with
  | nil => simp [setAssoc] at h
  | cons hd tl ih =>
    obtain ⟨k0, v0⟩ := hd
    simp only [setAssoc] at h
    cases hbeq : (k0 == id) with
    | true =>
      rw [hbeq] at h
      simp at h
      rcases h with h | h
      · left; rw [h]
      · right; exact List.mem_cons_of_mem _ h
    | false =>
      rw [hbeq] at h
      simp at h
      rcases h with h | h
      · right; simp [h]
      · rcases ih h with h2 | h2
        · left; exact h2
        · right; exact List.mem_cons_of_mem _ h2

theorem setAssoc_length {α : Type} (l : List (String × α)) (id : String) (x : α) :
    (setAssoc l id x).length = l.length := by
  induction l with
  | nil => rfl
  | cons hd tl ih =>
    obtain ⟨k0, v0⟩ := hd
    simp only [setAssoc]
    cases hbeq : (k0 == id) with
    | true => simp
    | false => simp [ih]

theorem getAssoc_setAssoc_isSome {α : Type} (l : List (String × α)) (id k : String)
    (x : α) : (getAssoc (setAssoc l id x) k).isSome = (getAssoc l k).isSome := by
  induction l with
  | nil => rfl
  | cons hd tl ih =>
    obtain ⟨k0, v0⟩ := hd
    by_cases hbeq : (k0 == id) = true
    · simp only [setAssoc, if_pos hbeq, getAssoc]
      by_cases hk : (k0 == k) = true
      · simp [hk]
      · simp [hk]
    · simp only [setAssoc, if_neg hbeq, getAssoc]
      by_cases hk : (k0 == k) = true
      · simp [hk]
      · simp [hk, ih]

/-- The hook either leaves the status unchanged (a `downloading` or unknown
event) or sets it to `processing` (a `finished` event). -/
theorem progress_hook_status (d : ProgressEvent) (r : JobRecord) :
    (progress_hook d r).status = r.status ∨ (progress_hook d r).status = Status.processing := by
  unfold progress_hook
  split
  · left; rfl
  · split
    · right; rfl
    · left; rfl

/-! ## Store invariants along system runs -/

/-- No record in the store carries status `queued`. -/
def storeNotQueued (s : SysState) : Prop :=
  ∀ p ∈ s.store, p.2.status ≠ Status.queued

theorem step_storeNotQueued {s s' : SysState} {e : Event}
    (hok : storeNotQueued s) (hs : step s e = some s') : storeNotQueued s' := by
  cases e with
  | submit id =>
    simp only [step] at hs
    cases hc : getAssoc s.ctl id with
    | some c => simp only [hc] at hs; cases hs
    | none =>
      simp only [hc] at hs
      cases hs
      exact hok
  | start id =>
    simp only [step] at hs
    cases hc : getAssoc s.ctl id with
    | none => simp only [hc] at hs; cases hs
    | some c =>
      simp only [hc] at hs
      by_cases hcond : (c.phase == Phase.submitted && decide (0 < s.avail)) = true
      · rw [if_pos hcond] at hs
        cases hs
        intro p hp
        rcases List.mem_cons.mp hp with h | h
        · rw [h]; simp [initial_record]
        · exact hok p h
      · rw [if_neg hcond] at hs; cases hs
  | hook id d =>
    simp only [step] at hs
    cases hc : getAssoc s.ctl id with
    | none => simp only [hc] at hs; cases hs
    | some c =>
      cases hr : getAssoc s.store id with
      | none => simp only [hc, hr] at hs; cases hs
      | some r =>
        simp only [hc, hr] at hs
        by_cases hcond : c.threadLive = true
        · rw [if_pos hcond] at hs
          cases hs
          intro p hp
          rcases setAssoc_mem hp with h | h
          · rw [h]
            rcases progress_hook_status d r with h2 | h2
            · rw [h2]
              obtain ⟨k, hk⟩ := getAssoc_some_mem hr
              exact hok _ hk
            · rw [h2]; simp
          · exact hok p h
        · rw [if_neg hcond] at hs; cases hs
  | complete id res =>
    simp only [step] at hs
    cases hc : getAssoc s.ctl id with
    | none => simp only [hc] at hs; cases hs
    | some c =>
      cases hr : getAssoc s.store id with
      | none => simp only [hc, hr] at hs; cases hs
      | some r =>
        simp only [hc, hr] at hs
        by_cases hcond : (c.phase == Phase.running) = true
        · rw [if_pos hcond] at hs
          cases hs
          intro p hp
          rcases setAssoc_mem hp with h | h
          · rw [h]; simp
          · exact hok p h
        · rw [if_neg hcond] at hs; cases hs
  | fail id err =>
    simp only [step] at hs
    cases hc : getAssoc s.ctl id with
    | none => simp only [hc] at hs; cases hs
    | some c =>
      cases hr : getAssoc s.store id with
      | none => simp only [hc, hr] at hs; cases hs
      | some r =>
        simp only [hc, hr] at hs
        by_cases hcond : (c.phase == Phase.running) = true
        · rw [if_pos hcond] at hs
          cases hs
          intro p hp
          rcases setAssoc_mem hp with h | h
          · rw [h]; simp
          · exact hok p h
        · rw [if_neg hcond] at hs; cases hs
  | threadFinish id =>
    simp only [step] at hs
    cases hc : getAssoc s.ctl id with
    | none => simp only [hc] at hs; cases hs
    | some c =>
      simp only [hc] at hs
      by_cases hcond : c.threadLive = true
      · rw [if_pos hcond] at hs
        cases hs
        exact hok
      · rw [if_neg hcond] at hs; cases hs

theorem run_storeNotQueued {s s' : SysState} {el : List Event}
    (hok : storeNotQueued s) (hs : run s el = some s') : storeNotQueued s' := by
  induction el generalizing s with
  | nil =>
    simp only [run] at hs
    cases hs
    exact hok
  | cons e rest ih =>
    simp only [run] at hs
    cases hst : step s e with
    | none => rw [hst] at hs; cases hs
    | some s2 =>
      rw [hst] at hs
      exact ih (step_storeNotQueued hok hst) hs

/-- One step never removes a record and never shrinks the store. -/
theorem step_store_persist {s s' : SysState} {e : Event} (hs : step s e = some s') :
    (∀ id, (getAssoc s.store id).isSome = true → (getAssoc s'.store id).isSome = true) ∧
    s.store.length ≤ s'.store.length := by
  cases e with
  | submit id0 =>
    simp only [step] at hs
    cases hc : getAssoc s.ctl id0 with
    | some c => simp only [hc] at hs; cases hs
    | none =>
      simp only [hc] at hs
      cases hs
      exact ⟨fun id h => h, Nat.le_refl _⟩
  | start id0 =>
    simp only [step] at hs
    cases hc : getAssoc s.ctl id0 with
    | none => simp only [hc] at hs; cases hs
    | some c =>
      simp only [hc] at hs
      by_cases hcond : (c.phase == Phase.submitted && decide (0 < s.avail)) = true
      · rw [if_pos hcond] at hs
        cases hs
        constructor
        · intro id h
          simp only [getAssoc]
          cases id0 == id <;> simp_all
        · simp [Nat.le_succ]
      · rw [if_neg hcond] at hs; cases hs
  | hook id0 d =>
    simp only [step] at hs
    cases hc : getAssoc s.ctl id0 with
    | none => simp only [hc] at hs; cases hs
    | some c =>
      cases hr : getAssoc s.store id0 with
      | none => simp only [hc, hr] at hs; cases hs
      | some r =>
        simp only [hc, hr] at hs
        by_cases hcond : c.threadLive = true
        · rw [if_pos hcond] at hs
          cases hs
          exact ⟨fun id h => by rw [getAssoc_setAssoc_isSome]; exact h,
                 by rw [setAssoc_length]⟩
        · rw [if_neg hcond] at hs; cases hs
  | complete id0 res =>
    simp only [step] at hs
    cases hc : getAssoc s.ctl id0 with
    | none => simp only [hc] at hs; cases hs
    | some c =>
      cases hr : getAssoc s.store id0 with
      | none => simp only [hc, hr] at hs; cases hs
      | some r =>
        simp only [hc, hr] at hs
        by_cases hcond : (c.phase == Phase.running) = true
        · rw [if_pos hcond] at hs
          cases hs
          exact ⟨fun id h => by rw [getAssoc_setAssoc_isSome]; exact h,
                 by rw [setAssoc_length]⟩
        · rw [if_neg hcond] at hs; cases hs
  | fail id0 err =>
    simp only [step] at hs
    cases hc : getAssoc s.ctl id0 with
    | none => simp only [hc] at hs; cases hs
    | some c =>
      cases hr : getAssoc s.store id0 with
      | none => simp only [hc, hr] at hs; cases hs
      | some r =>
        simp only [hc, hr] at hs
        by_cases hcond : (c.phase == Phase.running) = true
        · rw [if_pos hcond] at hs
          cases hs
          exact ⟨fun id h => by rw [getAssoc_setAssoc_isSome]; exact h,
                 by rw [setAssoc_length]⟩
        · rw [if_neg hcond] at hs; cases hs
  | threadFinish id0 =>
    simp only [step] at hs
    cases hc : getAssoc s.ctl id0 with
    | none => simp only [hc] at hs; cases hs
    | some c =>
      simp only [hc] at hs
      by_cases hcond : c.threadLive = true
      · rw [if_pos hcond] at hs
        cases hs
        exact ⟨fun id h => h, Nat.le_refl _⟩
      · rw [if_neg hcond] at hs; cases hs

/-- Along any run, records persist and the tracked-job count never drops. -/
theorem run_store_persist {s s' : SysState} {el : List Event} (hs : run s el = some s') :
    (∀ id, (getAssoc s.store id).isSome = true → (getAssoc s'.store id).isSome = true) ∧
    health_count s ≤ health_count s' := by
  induction el generalizing s with
  | nil =>
    simp only [run] at hs
    cases hs
    exact ⟨fun id h => h, Nat.le_refl _⟩
  | cons e rest ih =>
    simp only [run] at hs
    cases hst : step s e with
    | none => rw [hst] at hs; cases hs
    | some s2 =>
      rw [hst] at hs
      obtain ⟨h1, h2⟩ := step_store_persist hst
      obtain ⟨h3, h4⟩ := ih hs
      exact ⟨fun id h => h3 id (h1 id h), Nat.le_trans h2 h4⟩

/-! ## Characterisations of the orchestrator outcome -/

/-- When the extraction call raises, `download_video` catches the
exception and finalises the record as failed with that error. -/
theorem download_video_error {req : VideoRequest} {did : String} {ex : Extractor}
    {elapsed : Nat} {fs : String → Option Nat} {st et : Nat} {e : JobError}
    (h : execute_download req.url did ex elapsed fs = Except.error e) :
    download_video req did ex elapsed fs st et =
      { initial_record req.url (some st) with
        status := Status.failed,
        error := some e,
        end_time := some et,
        message := "Download failed" } := by
  unfold download_video
  rw [h]

/-- When the extraction call returns a result, `download_video` finalises
the record as completed with that result. -/
theorem download_video_ok {req : VideoRequest} {did : String} {ex : Extractor}
    {elapsed : Nat} {fs : String → Option Nat} {st et : Nat} {res : DownloadResult}
    (h : execute_download req.url did ex elapsed fs = Except.ok res) :
    download_video req did ex elapsed fs st et =
      { initial_record req.url (some st) with
        status := Status.completed,
        end_time := some et,
        duration := some (et - st),
        result := some res,
        message := "Download completed successfully!" } := by
  unfold download_video
  rw [h]

/-- A reported size strictly above the maximum trips the preflight guard. -/
theorem size_check_trips_of_gt {maxS n : Nat} (h : maxS < n) :
    size_check_trips maxS (some n) = true := by
  simp only [size_check_trips, Bool.and_eq_true, bne_iff_ne, ne_eq, decide_eq_true_eq]
  exact ⟨fun h0 => Nat.not_lt_zero maxS (h0 ▸ h), h⟩

/-- When the preflight inspect reports a size above the maximum, the sync
body raises the oversize error without reaching the download call. -/
theorem download_sync_size_exceeded {ex : Extractor} {info : InfoDict} {n : Nat}
    (hins : ex.inspect = Except.ok info) (hfs : info.filesize = some n)
    (hgt : max_file_size < n) :
    download_sync max_file_size ex =
      { result := Except.error (JobError.sizeExceeded n), downloadCalled := false } := by
  unfold download_sync
  simp only [hins]
  rw [if_pos (by rw [hfs]; exact size_check_trips_of_gt hgt), hfs]
  rfl

/-- A falsy reported size (absent key, `None` value or `0`) skips the
preflight guard entirely. -/
theorem size_check_trips_falsy {maxS : Nat} {o : Option Nat}
    (h : o = none ∨ o = some 0) : size_check_trips maxS o = false := by
  rcases h with h | h <;> rw [h] <;> simp [size_check_trips]

/-! ## Sample inputs for witnesses and counterexamples -/

/-- A sample non-audio request on a YouTube URL. -/
def sample_request : VideoRequest :=
  { url := "https://youtube.com/watch?v=X",
    format := "mp4", quality := "best",
    audio_only := false, remove_watermark := true }

/-- An info dict reporting no metadata at all (no `filesize` key). -/
def no_size_info : InfoDict :=
  { title := none, uploader := none, duration := none,
    view_count := none, upload_date := none, filesize := none }

/-- An info dict whose preflight `filesize` is 100 bytes. -/
def small_info : InfoDict :=
  { no_size_info with filesize := some 100 }

/-- An info dict whose preflight `filesize` is one byte above the maximum. -/
def oversize_info : InfoDict :=
  { no_size_info with filesize := some (max_file_size + 1) }

/-- An extractor whose preflight reports no size and whose download
succeeds. -/
def no_size_extractor : Extractor :=
  { inspect := Except.ok no_size_info, download := Except.ok no_size_info }

/-- An extractor whose preflight reports 100 bytes and whose download
succeeds. -/
def small_extractor : Extractor :=
  { inspect := Except.ok small_info, download := Except.ok small_info }

/-- An extractor whose preflight reports an oversized file. -/
def oversize_extractor : Extractor :=
  { inspect := Except.ok oversize_info, download := Except.ok no_size_info }

/-- A download directory holding a single mp4 artifact of 500MB plus one
byte for the probed job. -/
def oversized_fs : String → Option Nat :=
  fun e => if e == "mp4" then some (max_file_size + 1) else none

/-- A download directory holding a single 5-byte mp4 artifact. -/
def small_fs : String → Option Nat :=
  fun e => if e == "mp4" then some 5 else none

/-- A yt-dlp progress callback payload with status finished. -/
def finished_event : ProgressEvent :=
  { status := "finished", percent_str := "N/A", speed_str := "N/A",
    eta_str := "N/A", downloaded_bytes := 0, total_bytes := 0 }

/-! ## Claims -/

/-- Claim C1, counterexample: the claim says submit creates a Job Record
with status queued, so getStatus on a submitted-but-not-yet-admitted job
finds a queued record. In the code the POST handler only schedules the
background task; a run consisting of one accepted submission leaves the
store empty and the status query returns `none` (the 404 branch), not a
queued record. -/
theorem c1_counterexample_submitted_job_not_found :
    (run (initState semaphore_capacity) [Event.submit "j1"]).map
      (fun s => get_status s "j1") = some none := by
  rfl

/-- Claim C1, amended: submit returns the new job identity immediately
with response status "queued" but creates no Job Record; the record is
first created at admission directly with status processing, and no record
in the store ever carries status queued, so getStatus on a
submitted-but-not-yet-admitted job returns NotFound. -/
theorem c1_amended_no_queued_record :
    (∀ did, (download_endpoint did).download_id = did ∧
            (download_endpoint did).status = "queued") ∧
    (∀ (n : Nat) (el : List Event) (id : String) (r : JobRecord),
      (run (initState n) el).bind (fun s => get_status s id) = some r →
      r.status ≠ Status.queued) := by
  constructor
  · intro did
    exact ⟨rfl, rfl⟩
  · intro n el id r h
    cases hrun : run (initState n) el with
    | none => rw [hrun] at h; cases h
    | some s =>
      rw [hrun] at h
      simp only [Option.bind] at h
      have hok : storeNotQueued s :=
        run_storeNotQueued (fun p hp => absurd hp (List.not_mem_nil p)) hrun
      obtain ⟨k, hk⟩ := getAssoc_some_mem (h : getAssoc s.store id = some r)
      exact hok _ hk

/-- Witness for the amended C1: a concrete submitted-then-admitted job,
whose stored record (the initial processing record) is not queued, and a
concrete endpoint response with status "queued". -/
theorem c1_amended_no_queued_record_witness :
    ((download_endpoint "w1").download_id = "w1" ∧
     (download_endpoint "w1").status = "queued") ∧
    (initial_record "" none).status ≠ Status.queued :=
  ⟨c1_amended_no_queued_record.1 "w1",
   c1_amended_no_queued_record.2 semaphore_capacity
     [Event.submit "a", Event.start "a"] "a" (initial_record "" none) (by rfl)⟩

/-- Trace for claim C2: one job is submitted, admitted and then fails by
timeout, leaving its abandoned extractor thread alive. -/
def c2_failed_trace : List Event :=
  [Event.submit "j1", Event.start "j1", Event.fail "j1" JobError.timeout]

/-- Claim C2, code-bug evidence: after the job has reached the terminal
status failed (timeout), a late-arriving finished progress callback from
the abandoned extractor thread is still applied and flips the status of
the record back to processing — the hook performs no status check before
mutating, contradicting the claimed guard. -/
theorem c2_late_finished_hook_overwrites_failed :
    (run (initState semaphore_capacity) c2_failed_trace).map
        (fun s => (get_status s "j1").map (fun r => r.status))
      = some (some Status.failed) ∧
    (run (initState semaphore_capacity)
        (c2_failed_trace ++ [Event.hook "j1" finished_event])).map
        (fun s => (get_status s "j1").map (fun r => r.status))
      = some (some Status.processing) := by
  constructor <;> rfl

/-- Claim C3, counterexample: when the preflight reports no size, a job
completes with a recorded file size of 500MB plus one byte — strictly
above the configured maximum, which is never checked after download. -/
theorem c3_counterexample_completed_oversized :
    (download_video sample_request "d3" no_size_extractor 0 oversized_fs 0 10).status
      = Status.completed ∧
    ((download_video sample_request "d3" no_size_extractor 0 oversized_fs 0 10).result).map
        (fun r => r.file_size) = some (max_file_size + 1) ∧
    max_file_size < max_file_size + 1 :=
  ⟨rfl, rfl, Nat.lt_succ_self _⟩

/-- Claim C3, amended: the size bound on completed jobs holds only for
the preflight-reported size — every completed job whose inspect result
carried a filesize has that reported size at most the maximum (a falsy 0
satisfies the bound trivially); the on-disk size of the artifact is
recorded without any check. -/
theorem c3_amended_preflight_size_bounded :
    ∀ (req : VideoRequest) (did : String) (ex : Extractor) (elapsed : Nat)
      (fs : String → Option Nat) (st et : Nat) (info : InfoDict) (n : Nat),
      ex.inspect = Except.ok info →
      info.filesize = some n →
      (download_video req did ex elapsed fs st et).status = Status.completed →
      n ≤ max_file_size := by
  intro req did ex elapsed fs st et info n hins hfs hcomp
  by_contra hgt
  push_neg at hgt
  by_cases ht : timeout_duration < elapsed
  · have hexec : execute_download req.url did ex elapsed fs = Except.error JobError.timeout := by
      unfold execute_download
      rw [if_pos ht]
    rw [download_video_error hexec] at hcomp
    simp at hcomp
  · have hexec : execute_download req.url did ex elapsed fs
        = Except.error (JobError.sizeExceeded n) := by
      unfold execute_download
      rw [if_neg ht, download_sync_size_exceeded hins hfs hgt]
    rw [download_video_error hexec] at hcomp
    simp at hcomp

/-- Witness for the amended C3: a concrete extractor reporting 100 bytes
whose job completes, forcing 100 to be at most the maximum. -/
theorem c3_amended_preflight_size_bounded_witness :
    small_extractor.inspect = Except.ok small_info ∧
    small_info.filesize = some 100 ∧
    (download_video sample_request "w3" small_extractor 0 small_fs 0 1).status
      = Status.completed ∧
    (100 : Nat) ≤ max_file_size :=
  ⟨rfl, rfl, rfl,
   c3_amended_preflight_size_bounded sample_request "w3" small_extractor 0 small_fs 0 1
     small_info 100 rfl rfl rfl⟩

/-- Claim C4, counterexample: for a non-audio 720p request on YouTube —
a platform other than TikTok — the format actually passed to the
extractor is the fixed mp4-preferring override from
`_get_youtube_options`, not the height-capped quality-tier entry. -/
theorem c4_counterexample_youtube_override :
    detect_platform sample_request.url = "youtube" ∧
    (let req := { sample_request with quality := "720p" }
     build_options_format req (detect_platform req.url)
        = "bestvideo[ext=mp4]+bestaudio[ext=m4a]/mp4/best" ∧
     build_options_format req (detect_platform req.url) ≠ quality_lookup req.quality) := by
  refine ⟨rfl, rfl, ?_⟩
  decide

/-- Claim C4, amended: for non-audio requests the quality-tier table
(with unknown tiers defaulting to unconstrained best) gives the format
passed to the extractor on every platform other than TikTok and other
than YouTube; on YouTube the platform options override it. -/
theorem c4_amended_quality_tier_off_youtube :
    ∀ (req : VideoRequest) (platform : String),
      req.audio_only = false →
      platform ≠ "tiktok" →
      platform ≠ "youtube" →
      build_options_format req platform = quality_lookup req.quality := by
  intro req p h1 h2 h3
  unfold build_options_format
  rw [if_neg (by simp [h3])]
  unfold get_format_string
  rw [if_neg (by simp [h1]), if_neg (by simp [h2])]

/-- Witness for the amended C4: a concrete 480p Instagram request whose
extractor format is exactly the 480p quality-tier entry. -/
theorem c4_amended_quality_tier_off_youtube_witness :
    ({ sample_request with quality := "480p" } : VideoRequest).audio_only = false ∧
    ("instagram" : String) ≠ "tiktok" ∧
    ("instagram" : String) ≠ "youtube" ∧
    build_options_format { sample_request with quality := "480p" } "instagram"
      = quality_lookup ({ sample_request with quality := "480p" } : VideoRequest).quality :=
  ⟨rfl, by decide, by decide,
   c4_amended_quality_tier_off_youtube { sample_request with quality := "480p" }
     "instagram" rfl (by decide) (by decide)⟩

/-- Claim C5: whenever the blocking extraction call (inspect plus
download) takes longer than the configured timeout, the orchestrator
observes the timeout — whatever the extractor would eventually have
produced — and the job ends failed with the timeout error and no result,
the abandoned call contributing nothing to the record. -/
theorem c5_timeout_always_fails :
    ∀ (req : VideoRequest) (did : String) (ex : Extractor) (elapsed : Nat)
      (fs : String → Option Nat) (st et : Nat),
      timeout_duration < elapsed →
      (download_video req did ex elapsed fs st et).status = Status.failed ∧
      (download_video req did ex elapsed fs st et).error = some JobError.timeout ∧
      (download_video req did ex elapsed fs st et).result = none := by
  intro req did ex elapsed fs st et h
  have hexec : execute_download req.url did ex elapsed fs = Except.error JobError.timeout := by
    unfold execute_download
    rw [if_pos h]
  rw [download_video_error hexec]
  exact ⟨rfl, rfl, rfl⟩

/-- Witness for C5: a concrete 601-second extraction against the
600-second budget fails with the timeout error even though the extractor
itself would have succeeded. -/
theorem c5_timeout_always_fails_witness :
    timeout_duration < 601 ∧
    (download_video sample_request "w5" small_extractor 601 small_fs 0 700).status
      = Status.failed ∧
    (download_video sample_request "w5" small_extractor 601 small_fs 0 700).error
      = some JobError.timeout ∧
    (download_video sample_request "w5" small_extractor 601 small_fs 0 700).result = none := by
  have h := c5_timeout_always_fails sample_request "w5" small_extractor 601 small_fs 0 700
    (by decide)
  exact ⟨by decide, h.1, h.2.1, h.2.2⟩

/-- Claim C6: when the preflight inspect reports a size strictly above
the maximum, the download-mode extractor call is never reached, and —
provided the blocking call stays within the timeout budget, so that its
oversize report is what the orchestrator observes — the job ends failed
with the size-exceeded error carrying the reported size. -/
theorem c6_preflight_oversize_never_downloads :
    ∀ (req : VideoRequest) (did : String) (ex : Extractor) (elapsed : Nat)
      (fs : String → Option Nat) (st et : Nat) (info : InfoDict) (n : Nat),
      ex.inspect = Except.ok info →
      info.filesize = some n →
      max_file_size < n →
      (download_sync max_file_size ex).downloadCalled = false ∧
      (elapsed ≤ timeout_duration →
        (download_video req did ex elapsed fs st et).status = Status.failed ∧
        (download_video req did ex elapsed fs st et).error
          = some (JobError.sizeExceeded n)) := by
  intro req did ex elapsed fs st et info n hins hfs hgt
  have hsync := download_sync_size_exceeded hins hfs hgt
  constructor
  · rw [hsync]
  · intro hle
    have hexec : execute_download req.url did ex elapsed fs
        = Except.error (JobError.sizeExceeded n) := by
      unfold execute_download
      rw [if_neg (Nat.not_lt.mpr hle), hsync]
    rw [download_video_error hexec]
    exact ⟨rfl, rfl⟩

/-- Witness for C6: a concrete extractor reporting 500MB plus one byte
never reaches its download call, and the job fails with the
size-exceeded error. -/
theorem c6_preflight_oversize_never_downloads_witness :
    max_file_size < max_file_size + 1 ∧
    (download_sync max_file_size oversize_extractor).downloadCalled = false ∧
    (download_video sample_request "w6" oversize_extractor 0 small_fs 0 1).status
      = Status.failed ∧
    (download_video sample_request "w6" oversize_extractor 0 small_fs 0 1).error
      = some (JobError.sizeExceeded (max_file_size + 1)) := by
  have h := c6_preflight_oversize_never_downloads sample_request "w6" oversize_extractor
    0 small_fs 0 1 oversize_info (max_file_size + 1) rfl rfl (Nat.lt_succ_self _)
  exact ⟨Nat.lt_succ_self _, h.1, (h.2 (by decide)).1, (h.2 (by decide)).2⟩

/-- Trace for claim C7 with gate capacity 5: six jobs are submitted, five
are admitted, the first fails by timeout (releasing its permit but
leaving its extractor thread alive), the sixth is admitted into the freed
permit, and then the late finished callback of the first job fires. -/
def c7_burst_trace : List Event :=
  [Event.submit "j1", Event.submit "j2", Event.submit "j3", Event.submit "j4",
   Event.submit "j5", Event.submit "j6",
   Event.start "j1", Event.start "j2", Event.start "j3", Event.start "j4",
   Event.start "j5",
   Event.fail "j1" JobError.timeout,
   Event.start "j6",
   Event.hook "j1" finished_event]

/-- Claim C7, code-bug evidence: the semaphore does bound concurrent
executions and every outcome releases its permit, but the status-based
bound the claim states is violated — after the trace above, six records
simultaneously carry status processing against a gate capacity of five,
because the unguarded late callback re-marks the timed-out job as
processing. -/
theorem c7_six_processing_with_capacity_five :
    (run (initState semaphore_capacity) c7_burst_trace).map processing_count = some 6 ∧
    semaphore_capacity < 6 := by
  constructor
  · rfl
  · decide

/-- Claim C8: an audio-only request always reaches the extractor with the
best-available-audio format, whatever the platform, quality tier or
watermark flag — the base selector returns it first, and the YouTube
override re-imposes the same value. -/
theorem c8_audio_only_bestaudio :
    ∀ (req : VideoRequest) (platform : String),
      req.audio_only = true →
      build_options_format req platform = "bestaudio/best" := by
  intro req p h
  unfold build_options_format
  by_cases hp : (p == "youtube") = true
  · rw [if_pos hp]
    unfold youtube_format
    rw [if_pos h]
  · rw [if_neg hp]
    unfold get_format_string
    rw [if_pos h]

/-- Witness for C8: a concrete audio-only TikTok request with watermark
removal and a video quality tier still yields the audio-best format. -/
theorem c8_audio_only_bestaudio_witness :
    ({ sample_request with audio_only := true } : VideoRequest).audio_only = true ∧
    build_options_format { sample_request with audio_only := true } "tiktok"
      = "bestaudio/best" :=
  ⟨rfl, c8_audio_only_bestaudio { sample_request with audio_only := true } "tiktok" rfl⟩

/-- Claim C9, counterexample: a job accepted by submit is not included in
the liveness count — after one accepted submission the health endpoint
still reports zero tracked jobs, because the record is only created at
admission. -/
theorem c9_counterexample_submitted_not_counted :
    (run (initState semaphore_capacity) [Event.submit "j1"]).map health_count = some 0 := by
  rfl

/-- Claim C9, amended: the liveness count is the number of stored job
records, which includes each job from admission (not from acceptance)
onward; records are never evicted, so along any run every existing record
persists and the count never decreases — cumulative for the process
lifetime. -/
theorem c9_amended_count_cumulative_from_admission :
    ∀ (s s' : SysState) (el : List Event),
      run s el = some s' →
      (∀ id, (get_status s id).isSome = true → (get_status s' id).isSome = true) ∧
      health_count s ≤ health_count s' := by
  intro s s' el h
  exact run_store_persist h

/-- System state holding one admitted job, used to witness the amended C9. -/
def one_job_state : SysState :=
  { avail := 4,
    store := [("a", initial_record "" none)],
    ctl := [("a", { phase := Phase.running, threadLive := true })] }

/-- System state after the one admitted job of `one_job_state` fails by
timeout. -/
def one_job_failed_state : SysState :=
  { avail := 5,
    store := [("a", { initial_record "" none with
                      status := Status.failed,
                      error := some JobError.timeout,
                      message := "Download failed" })],
    ctl := [("a", { phase := Phase.done, threadLive := true })] }

/-- Witness for the amended C9: across a concrete failing step the
record of job "a" persists and the count does not drop. -/
theorem c9_amended_count_cumulative_witness :
    (∀ id, (get_status one_job_state id).isSome = true →
           (get_status one_job_failed_state id).isSome = true) ∧
    health_count one_job_state ≤ health_count one_job_failed_state :=
  c9_amended_count_cumulative_from_admission one_job_state one_job_failed_state
    [Event.fail "a" JobError.timeout] (by rfl)

/-- Claim C10: a falsy preflight filesize (absent, `None`, or `0`)
disables the size bound entirely: the download call is always reached,
and when the download succeeds within the budget and an artifact of any
size whatsoever is on disk, the job completes recording that size — no
limit is applied before or after the download. -/
theorem c10_falsy_filesize_no_size_limit :
    ∀ (req : VideoRequest) (did : String) (ex : Extractor) (elapsed : Nat)
      (fs : String → Option Nat) (st et : Nat) (info dinfo : InfoDict)
      (ext : String) (sz : Nat),
      ex.inspect = Except.ok info →
      (info.filesize = none ∨ info.filesize = some 0) →
      (download_sync max_file_size ex).downloadCalled = true ∧
      (ex.download = Except.ok dinfo →
        elapsed ≤ timeout_duration →
        locate_downloaded fs = some (ext, sz) →
        (download_video req did ex elapsed fs st et).status = Status.completed ∧
        ((download_video req did ex elapsed fs st et).result).map (fun r => r.file_size)
          = some sz) := by
  intro req did ex elapsed fs st et info dinfo ext sz hins hfalsy
  have hnot : size_check_trips max_file_size info.filesize = false :=
    size_check_trips_falsy hfalsy
  constructor
  · unfold download_sync
    simp only [hins, hnot]
    cases hdl : ex.download <;> simp
  · intro hdl hle hloc
    have hsync : (download_sync max_file_size ex).result = Except.ok dinfo := by
      unfold download_sync
      simp only [hins, hnot, hdl]
      rfl
    have hexec : execute_download req.url did ex elapsed fs
        = Except.ok
            { file_path := "downloads/" ++ did ++ "." ++ ext,
              file_size := sz,
              filename := did ++ "." ++ ext,
              metadata := build_metadata dinfo req.url } := by
      unfold execute_download
      rw [if_neg (Nat.not_lt.mpr hle), hsync, hloc]
    rw [download_video_ok hexec]
    exact ⟨rfl, rfl⟩

/-- Witness for C10: a concrete extractor reporting no preflight size
downloads an artifact of 500MB plus one byte and the job completes with
that oversized value recorded. -/
theorem c10_falsy_filesize_no_size_limit_witness :
    (download_sync max_file_size no_size_extractor).downloadCalled = true ∧
    (download_video sample_request "w10" no_size_extractor 0 oversized_fs 0 1).status
      = Status.completed ∧
    ((download_video sample_request "w10" no_size_extractor 0 oversized_fs 0 1).result).map
        (fun r => r.file_size) = some (max_file_size + 1) := by
  have h := c10_falsy_filesize_no_size_limit sample_request "w10" no_size_extractor
    0 oversized_fs 0 1 no_size_info no_size_info "mp4" (max_file_size + 1)
    rfl (Or.inl rfl)
  exact ⟨h.1, (h.2 rfl (by decide) rfl).1, (h.2 rfl (by decide) rfl).2⟩

end Server
